import Mathlib

/-
Verification of the smart service-name resolution core of the wrt1panel
repository (Go sources under src/backend/utils/systemctl and the facade in
src/unnamed/part_002, all in Go package `systemctl`).

Shallow embedding conventions:
* Go strings are Lean `String`s; the byte-level operations of Go's `strings`
  package (Contains, HasSuffix, TrimSuffix, TrimSpace, ToLower, EqualFold) are
  re-implemented on the character list `String.data` by structural recursion so
  that every definition evaluates by kernel reduction.  All concrete service
  names and markers in this development are ASCII, on which the character-level
  operations coincide with Go's byte-level ones.
* A Go pair `(T, error)` is modelled as `T × Option SvcError`; Go returns the
  zero value of `T` (`""`, `false`, `nil` slice) alongside a non-nil error, and
  the model does the same.
* The process-wide `sync.Map`s (alias table, discovery cache, existence cache)
  are modelled as functions `String → Option _`; `Store`/`Delete`/`LoadOrStore`
  become functional update.  `time.Now` becomes an explicit `now : Nat`
  parameter (seconds), and cache expiry timestamps are `Nat`s.
* External effects (running `systemctl`/`service`/`rc-service`, `os.Stat`) are
  parameters of the functions that perform them: an existence probe is a
  `probe : String → Bool` (`confirmServiceExists` never returns a non-nil
  error: `ServiceHandler.IsExists` in handle.go returns a nil error
  unconditionally and `commonServiceExists` in managers.go swallows check
  errors, so the error branch at host_tool.go:1316 is dead), an enumeration
  result is a `List String × Option SvcError`, a command execution result is a
  `String × Option SvcError`.
* `validateCandidatesConcurrently` races goroutines; its scheduling freedom is
  an explicit `ValSched` parameter, documented at the definition.
-/

namespace Systemctl

/-! ### Character-list string primitives (Go `strings` package, ASCII) -/

/-- Does the first list occur as a leading segment of the second list. -/
def listHasPref : List Char → List Char → Bool
  | [], _ => true
  | _ :: _, [] => false
  | a :: as, b :: bs => a == b && listHasPref as bs

/-- Does `pat` occur as a contiguous segment of the second list
(Go `strings.Contains` on bytes, here on ASCII characters). -/
def listHasSub (pat : List Char) : List Char → Bool
  | [] => listHasPref pat []
  | b :: bs => listHasPref pat (b :: bs) || listHasSub pat bs

/-- Does `pat` occur as a trailing segment of `l`. -/
def listHasSuf (pat l : List Char) : Bool := listHasPref pat.reverse l.reverse

/-- Go `strings.ToLower` (ASCII-faithful). -/
def strToLower (s : String) : String := ⟨s.data.map Char.toLower⟩

/-- Go `strings.Contains s sub`. -/
def strContains (s sub : String) : Bool := listHasSub sub.data s.data

/-- Go `strings.HasSuffix s suffix`. -/
def strHasSuffix (s suffix : String) : Bool := listHasSuf suffix.data s.data

/-- Go `strings.TrimSuffix s suffix`: drop one occurrence of `suffix` from the
end of `s` when present, else return `s` unchanged. -/
def strTrimSuffix (s suffix : String) : String :=
  if strHasSuffix s suffix then ⟨s.data.take (s.data.length - suffix.data.length)⟩ else s

/-- Go `strings.TrimSpace` (ASCII whitespace). -/
def strTrimSpace (s : String) : String :=
  ⟨((s.data.dropWhile Char.isWhitespace).reverse.dropWhile Char.isWhitespace).reverse⟩

/-- Go `strings.EqualFold` (ASCII-faithful: simple case folding coincides with
lower-casing both sides). -/
def eqFold (a b : String) : Bool := strToLower a == strToLower b

/-! ### Errors (host_tool.go:990-995, managers.go, part_002) -/

/-- The error values that the embedded functions can return.  Go wraps some of
these with `fmt.Errorf`; only the identity of the error path matters here. -/
inductive SvcError
  | serviceNotFound
  | discoveryTimeout (first : String)
  | serviceDiscovery (keyword : String)
  | noValidService (keyword : String)
  | checkExistsFailed
  | unsupportedStatusType (t : String)
  | notExist
  | actionFailed (action : String)
  deriving DecidableEq, BEq, Repr

/-! ### Process-wide maps (`sync.Map`) as functions -/

/-- `sync.Map.Store`. -/
def storeMap {α : Type} (m : String → Option α) (k : String) (v : α) : String → Option α :=
  fun x => if x == k then some v else m x

/-- `sync.Map.Delete`. -/
def eraseMap {α : Type} (m : String → Option α) (k : String) : String → Option α :=
  fun x => if x == k then none else m x

/-- The alias table `serviceAliases`: keyword to list of learned concrete
names (host_tool.go:985). -/
abbrev AliasTable := String → Option (List String)

/-- `sync.Map.LoadOrStore`: return the existing value, or store and return the
supplied default when the key is absent. -/
def loadOrStore (t : AliasTable) (k : String) (v : List String) : List String × AliasTable :=
  match t k with
  | some cur => (cur, t)
  | none => (v, storeMap t k v)

/-! ### Alias store (host_tool.go:997-1072, 1251-1341) -/

/-- host_tool.go:1296-1303 `contains`. -/
def contains (slice : List String) (item : String) : Bool :=
  slice.any (fun s => s == item)

/-- host_tool.go:997-1007 `loadPredefinedAliases`, looked up at one keyword. -/
def predefinedAliases (keyword : String) : List String :=
  match keyword with
  | "clam" => ["clamav-daemon.service", "clamd@scan.service", "clamd"]
  | "freshclam" => ["clamav-freshclam.service", "freshclam.service"]
  | "fail2ban" => ["fail2ban.service", "fail2ban"]
  | "supervisor" => ["supervisord.service", "supervisor.service", "supervisord", "supervisor"]
  | "ssh" => ["sshd.service", "ssh.service", "sshd", "ssh"]
  | "1panel" => ["1panel.service", "1paneld"]
  | "docker" => ["docker.service", "dockerd"]
  | _ => []

/-- Helper for `dedupKeepFirst`: keep each string the first time it is seen. -/
def dedupAcc (seen : List String) : List String → List String
  | [] => []
  | a :: as => if contains seen a then dedupAcc seen as else a :: dedupAcc (a :: seen) as

/-- Deduplicate keeping the first occurrence.  host_tool.go:1326-1341
`getAliases` merges predefined and learned aliases through a Go
`map[string]struct` whose iteration order is unspecified; the model fixes
first-occurrence order (predefined before learned), which is one of the
admissible orders. -/
def dedupKeepFirst (l : List String) : List String := dedupAcc [] l

/-- host_tool.go:1326-1341 `getAliases`.  Returns the merged candidate aliases
and the table after the `LoadOrStore(keyword, [])` side effect. -/
def getAliases (t : AliasTable) (keyword : String) : List String × AliasTable :=
  let runtimeAliases := (loadOrStore t keyword []).1
  (dedupKeepFirst (predefinedAliases keyword ++ runtimeAliases), (loadOrStore t keyword []).2)

/-- host_tool.go:1251-1262 `updateAliases`: no-op when the alias equals the
keyword or is already present, else append it.  (The `go scheduleSave()`
trigger is asynchronous persistence, modelled separately.) -/
def updateAliases (t : AliasTable) (keyword newAlias : String) : AliasTable :=
  if keyword == newAlias then t
  else
    let aliases := (loadOrStore t keyword []).1
    let t1 := (loadOrStore t keyword []).2
    if contains aliases newAlias then t1
    else storeMap t1 keyword (aliases ++ [newAlias])

/-- Apply a sequence of `updateAliases` calls in order. -/
def applyUpdates (ops : List (String × String)) (t : AliasTable) : AliasTable :=
  ops.foldl (fun acc op => updateAliases acc op.1 op.2) t

/-- The C10 invariant on the alias table: each stored list has no duplicates
and never contains its own keyword. -/
def Invariant (t : AliasTable) : Prop :=
  ∀ k l, t k = some l → l.Nodup ∧ k ∉ l

/-- host_tool.go:1050-1072 `cleanupKeywordAliases`: the `Range` iterates the
whole map but acts only on the entry whose key equals `keyword` (all other
keys are skipped by the early `return true`), so with unique map keys it is
the pointwise update below.  `probe` is the `confirmServiceExists` boolean
outcome (its error is discarded at this call site).  The function also deletes
`serviceExistenceCache` under the keyword and triggers `go scheduleSave()`;
both act on state outside the alias table and are modelled separately. -/
def cleanupKeywordAliases (probe : String → Bool) (t : AliasTable) (keyword : String) :
    AliasTable :=
  match t keyword with
  | none => t
  | some aliases =>
      let valid := aliases.filter probe
      if valid.isEmpty then eraseMap t keyword else storeMap t keyword valid

/-! ### Naming normalization (host_tool.go:1098-1114) -/

/-- host_tool.go:1101-1103: a trailing `.service.socket` is rewritten to
`.socket`. -/
def socketRewrite (k : String) : String :=
  if strHasSuffix k ".service.socket" then strTrimSuffix k ".service.socket" ++ ".socket" else k

/-- host_tool.go:1098-1114 `handleServiceNaming`, with the manager represented
by its name (`mgr.Name()`). -/
def handleServiceNaming (mgrName keyword : String) : String :=
  let k := socketRewrite (strToLower keyword)
  if !(mgrName == "systemd") then strTrimSuffix k ".service"
  else if !(strHasSuffix k ".service") && !(strHasSuffix k ".socket") then k ++ ".service"
  else k

/-- The naming normalization as claim C2 words it, for the refinement
comparison: lower-case; rewrite a trailing `.service.socket` to `.socket`;
under systemd the result ends in `.service` unless it already ends in
`.service` or `.socket`; under any other manager the `.service` suffix is
stripped instead. -/
def handleServiceNamingClaim (mgrName keyword : String) : String :=
  let k := socketRewrite (strToLower keyword)
  if mgrName == "systemd" then
    if strHasSuffix k ".service" || strHasSuffix k ".socket" then k else k ++ ".service"
  else strTrimSuffix k ".service"

/-! ### Concurrent candidate validation (host_tool.go:1115-1155) -/

/-- The scheduling freedom of `validateCandidatesConcurrently`.  The function
launches one goroutine per candidate in an `errgroup`; the first goroutine
whose probe succeeds places its candidate in the 1-buffered channel `found`; a
forwarder goroutine publishes `g.Wait()` on `resultErr` and then closes
`found`.  The main `select` then returns whichever of three events it
observes first (Go's `select` picks uniformly among ready cases):
* `pickFound order`: the `found` receive fires; `order` is the completion
  order of the probe goroutines (a permutation of the candidates), so the
  received value is the first candidate in `order` whose probe succeeded — or,
  when no probe succeeded, the zero value `""` delivered by the closed
  channel, with a nil error.
* `pickWaitErr`: the `resultErr` receive fires.  `errgroup.Wait` returns the
  first non-nil goroutine error, and every failed probe returned
  `ErrServiceNotFound`; the code returns `("", ErrServiceNotFound)` on this
  path whether or not `g.Wait()` was nil (host_tool.go:1149-1154).
* `pickTimeout`: the 1s `time.After` fires first; the code returns the
  discovery-timeout error naming `candidates[0]`. -/
inductive ValSched
  | pickFound (completionOrder : List String)
  | pickWaitErr
  | pickTimeout

/-- host_tool.go:1115-1155 `validateCandidatesConcurrently`, parameterized by
the schedule (see `ValSched`). -/
def validateCandidatesConcurrently (probe : String → Bool) (sched : ValSched)
    (candidates : List String) : String × Option SvcError :=
  match sched with
  | .pickFound order =>
      match order.find? (fun cand => probe cand) with
      | some cand => (cand, none)
      | none => ("", none)
  | .pickWaitErr => ("", some .serviceNotFound)
  | .pickTimeout => ("", some (.discoveryTimeout (candidates.headD "")))

/-! ### Best-match selection (host_tool.go:1179-1209) -/

/-- host_tool.go:1179-1209 `selectBestMatch`.  The two Go loops with `break`
are the two `find?`s; the loop results are the `""`-sentinel variables
`exactMatch` and `firstContainMatch`, tested against `""` exactly as in the
source. -/
def selectBestMatch (keyword : String) (candidates : List String) :
    String × Option SvcError :=
  if candidates.isEmpty then ("", some .serviceNotFound)
  else
    let lowerKeyword := strToLower keyword
    let exactMatch :=
      match candidates.find? (fun name => eqFold name keyword) with
      | some name => name
      | none => ""
    if exactMatch ≠ "" then (exactMatch, none)
    else
      let firstContainMatch :=
        match candidates.find? (fun name => strContains (strToLower name) lowerKeyword) with
        | some name => name
        | none => ""
      if firstContainMatch ≠ "" then (firstContainMatch, none)
      else ("", some (.noValidService keyword))

/-! ### Discovery and resolution (host_tool.go:1074-1097, 1156-1178) -/

/-- host_tool.go:1156-1178 `discoverAndSelectService`, parameterized by the
outcome `discRes` of `discoverServices keyword` and the existence probe. -/
def discoverAndSelectService (probe : String → Bool)
    (discRes : List String × Option SvcError) (keyword : String) :
    String × Option SvcError :=
  match discRes with
  | (_, some _) => ("", some .serviceNotFound)
  | (discovered, none) =>
      if discovered.isEmpty then ("", some .serviceNotFound)
      else
        match selectBestMatch keyword discovered with
        | (_, some _) => ("", some .serviceNotFound)
        | (selected, none) =>
            if probe selected then (selected, none) else ("", some .serviceNotFound)

/-- host_tool.go:1074-1097 `smartServiceName`.  `probe` stands for the boolean
outcome of `confirmServiceExists` (whose error return is dead code, see the
header), `sched` for the goroutine schedule of the candidate race, `discRes`
for the outcome of `discoverServices keyword`.  The success conditions
`err == nil` of the source are the `isSome` tests, with branches flipped
accordingly. -/
def smartServiceName (mgrName : String) (probe : String → Bool) (sched : ValSched)
    (discRes : List String × Option SvcError) (t : AliasTable) (keyword : String) :
    (String × Option SvcError) × AliasTable :=
  let processedName := handleServiceNaming mgrName keyword
  if probe processedName then
    ((processedName, none), updateAliases t keyword processedName)
  else
    let als := (getAliases t keyword).1
    let t1 := (getAliases t keyword).2
    let vres := validateCandidatesConcurrently probe sched (processedName :: als)
    if vres.2.isSome then
      let dres := discoverAndSelectService probe discRes keyword
      if dres.2.isSome then
        (("", some .serviceNotFound), cleanupKeywordAliases probe t1 keyword)
      else ((dres.1, none), updateAliases t1 keyword dres.1)
    else ((vres.1, none), updateAliases t1 keyword vres.1)

/-! ### Discovery cache (host_tool.go:1211-1249) -/

/-- `discoveryCache`: keyword to cached services plus expiry timestamp. -/
abbrev DCache := String → Option (List String × Nat)

/-- 5 minutes, in seconds (host_tool.go:1240 `5 * time.Minute`). -/
def discoveryTTL : Nat := 5 * 60

/-- host_tool.go:1222-1249 `discoverServices` (the body run under the
single-flight group, i.e. the one canonical caller), parameterized by the
outcome `findRes` of `manager.FindServices(keyword)`. -/
def discoverServices (now : Nat) (findRes : List String × Option SvcError)
    (cache : DCache) (keyword : String) :
    (List String × Option SvcError) × DCache :=
  let run : DCache → (List String × Option SvcError) × DCache := fun c =>
    match findRes with
    | (_, some _) => (([], some (.serviceDiscovery keyword)), c)
    | (results, none) => ((results, none), storeMap c keyword (results, now + discoveryTTL))
  match cache keyword with
  | some item =>
      if now < item.2 then ((item.1, none), cache)
      else run (eraseMap cache keyword)
  | none => run cache

/-! ### Existence cache (host_tool.go:1305-1324) -/

/-- `serviceExistenceCache`: concrete name to cached existence plus expiry. -/
abbrev ECache := String → Option (Bool × Nat)

/-- 30 seconds (host_tool.go:1321 `30 * time.Second`). -/
def existenceTTL : Nat := 30

/-- host_tool.go:1307-1324 `confirmServiceExists`, parameterized by the
outcome `probeRes` of `handler.IsExists()` (whose error component is in fact
always nil, see the header; the dead error branch is still modelled). -/
def confirmServiceExists (now : Nat) (probeRes : Bool × Option SvcError)
    (cache : ECache) (serviceName : String) :
    (Bool × Option SvcError) × ECache :=
  let run : ECache → (Bool × Option SvcError) × ECache := fun c =>
    match probeRes with
    | (_, some _) => ((false, some .checkExistsFailed), c)
    | (isExist, none) => ((isExist, none), storeMap c serviceName (isExist, now + existenceTTL))
  match cache serviceName with
  | some item =>
      if now < item.2 then ((item.1, none), cache)
      else run (eraseMap cache serviceName)
  | none => run cache

/-! ### Alias persistence (host_tool.go:1026-1048, 1264-1295) -/

/-- host_tool.go:1026-1048 `loadAliasesFromConfig`, applied to the parsed file
content `rawAliases` (a JSON object, hence unique keys; Go map iteration
order is abstracted as the list order).  Every persisted alias is re-probed;
only still-existing ones are kept, and a keyword with no surviving alias is
dropped. -/
def loadAliasesFromConfig (probe : String → Bool)
    (rawAliases : List (String × List String)) : List (String × List String) :=
  rawAliases.filterMap (fun kv =>
    let valid := kv.2.filter probe
    if valid.isEmpty then none else some (kv.1, valid))

/-- Look a keyword up in an association-list table (the parsed shape of the
persisted alias file). -/
def lookupAssoc (l : List (String × List String)) (k : String) : Option (List String) :=
  (l.find? (fun kv => kv.1 == k)).map (fun kv => kv.2)

/-! ### SysV status parsing (managers.go:313-355) -/

/-- managers.go:313-355 `sysvinitManager.ParseStatus`.  The `"enabled"` and
`"active"` cases return inside the switch; the `"active"` case falls through
to the trailing `unsupported status type` error when the output carries none
of its markers; any other status type reaches `baseManager.ParseStatus`, whose
own switch hits its default `(false, nil)` branch for those types
(managers.go:70-88). -/
def sysvinitParseStatus (output : String) (statusType : String) : Bool × Option SvcError :=
  if statusType == "enabled" then
    if strContains output "no such file or directory" then (false, none)
    else (!(strTrimSpace output == ""), none)
  else if statusType == "active" then
    if strContains output "not found" then (false, none)
    else if strContains output "running" || strContains output "active" then (true, none)
    else (false, some (.unsupportedStatusType "active"))
  else (false, none)

/-! ### Facade (src/unnamed/part_002, handle.go) -/

/-- handle.go:21-39 `ServiceHandler`, collapsed to the resolved concrete name
(the manager pointer is dispatched through the explicit parameters of the
operations below).  A Go `*ServiceHandler` is an `Option ServiceHandler`:
`none` is the nil pointer. -/
structure ServiceHandler where
  serviceName : String
  deriving DecidableEq, Repr

/-- handle.go:59-63 `ServiceResult`. -/
structure ServiceResult where
  success : Bool
  message : String
  output : String
  deriving DecidableEq, Repr

/-- The observable outcome of a Go function: a returned value, or a runtime
panic (here always a nil-pointer dereference). -/
inductive GoOutcome (α : Type)
  | ret (val : α)
  | panicked
  deriving DecidableEq, Repr

/-- part_002:12-19 `DefaultHandler`, parameterized by the outcome of
`smartServiceName`.  On resolution failure it returns the nil pointer together
with `ErrServiceNotFound`. -/
def DefaultHandler (resolveRes : String × Option SvcError) :
    Option ServiceHandler × Option SvcError :=
  match resolveRes with
  | (_, some _) => (none, some .serviceNotFound)
  | (svcName, none) => (some ⟨svcName⟩, none)

/-- handle.go:153-156 and 363-395 `ExecuteAction` on a possibly-nil handler,
parameterized by the outcome `cmdRes` of the external command.  On a nil
receiver the very first statement evaluates `h.GetServiceName()`, which reads
`h.manager` and `h.config` — a nil-pointer dereference, i.e. a panic. -/
def executeAction (action : String) (handler : Option ServiceHandler)
    (cmdRes : String × Option SvcError) : GoOutcome (ServiceResult × Option SvcError) :=
  match handler with
  | none => .panicked
  | some h =>
      match cmdRes with
      | (output, some _) =>
          .ret ({ success := false, message := action ++ " failed", output := output },
                some (.actionFailed action))
      | (output, none) =>
          .ret ({ success := true,
                  message := action ++ " : " ++ h.serviceName ++ " completed",
                  output := output },
                none)

/-- part_002:66-74 `Start`: the `DefaultHandler` error is DISCARDED
(`handler, _ :=`), and `handler.StartService()` is invoked unconditionally. -/
def Start (resolveRes : String × Option SvcError) (cmdRes : String × Option SvcError) :
    GoOutcome (Option SvcError) :=
  let handler := (DefaultHandler resolveRes).1
  match executeAction "start" handler cmdRes with
  | .panicked => .panicked
  | .ret (_, some e) => .ret (some e)
  | .ret (_, none) => .ret none

/-- part_002:76-88 `Stop`: unlike `Start`, the `DefaultHandler` error is
checked and turned into a `%s is not exist` error. -/
def Stop (resolveRes : String × Option SvcError) (cmdRes : String × Option SvcError) :
    GoOutcome (Option SvcError) :=
  match DefaultHandler resolveRes with
  | (_, some _) => .ret (some .notExist)
  | (handler, none) =>
      match executeAction "stop" handler cmdRes with
      | .panicked => .panicked
      | .ret (_, some e) => .ret (some e)
      | .ret (_, none) => .ret none

/-- part_002:148-156 `Disable`: like `Start`, the `DefaultHandler` error is
DISCARDED and the possibly-nil handler is dereferenced.  (`Restart` and
`Enable`, part_002:90-102 and 134-146, follow the checked `Stop` pattern.) -/
def Disable (resolveRes : String × Option SvcError) (cmdRes : String × Option SvcError) :
    GoOutcome (Option SvcError) :=
  let handler := (DefaultHandler resolveRes).1
  match executeAction "disable" handler cmdRes with
  | .panicked => .panicked
  | .ret (_, some e) => .ret (some e)
  | .ret (_, none) => .ret none

/-! ## Supporting lemmas -/

/-- `find?` returns the marked element of a split whose left part has no hit. -/
theorem find?_append_first {α : Type} (p : α → Bool) (pre : List α) (m : α) (post : List α)
    (hpre : ∀ x ∈ pre, p x = false) (hm : p m = true) :
    (pre ++ m :: post).find? p = some m := by
  induction pre with
  | nil => simp [List.find?_cons_of_pos, hm]
  | cons a as ih =>
      have ha : p a = false := hpre a (List.mem_cons_self a as)
      rw [List.cons_append, List.find?_cons_of_neg _ (by simp [ha])]
      exact ih (fun x hx => hpre x (List.mem_cons_of_mem _ hx))

/-- Reading a map right after `Store` at the stored key. -/
theorem storeMap_same {α : Type} (m : String → Option α) (k : String) (v : α) :
    storeMap m k v k = some v := by simp [storeMap]

/-- `Store` leaves every other key unchanged. -/
theorem storeMap_other {α : Type} (m : String → Option α) (k : String) (v : α)
    (x : String) (h : x ≠ k) : storeMap m k v x = m x := by simp [storeMap, h]

/-- Reading a map right after `Delete` at the deleted key. -/
theorem eraseMap_same {α : Type} (m : String → Option α) (k : String) :
    eraseMap m k k = none := by simp [eraseMap]

/-- `Delete` leaves every other key unchanged. -/
theorem eraseMap_other {α : Type} (m : String → Option α) (k : String)
    (x : String) (h : x ≠ k) : eraseMap m k x = m x := by simp [eraseMap, h]

/-- The table coming out of `getAliases` is the input table, except that an
absent keyword has been `LoadOrStore`d to the empty list. -/
theorem getAliases_table (t : AliasTable) (keyword : String) :
    (getAliases t keyword).2 =
      match t keyword with
      | some _ => t
      | none => storeMap t keyword [] := by
  unfold getAliases loadOrStore
  cases t keyword <;> rfl

/-! ## C1 — best-match selection -/

/-- C1 counterexample: with keyword `"Docker"` and candidate list `["dockerd"]`
the code returns `"dockerd"`, although `"dockerd"` is not a case-insensitive
exact match of the keyword and its lowercased form does not contain the
keyword `"Docker"` as a substring — by the claim's wording the call should
have failed with the no-exact-or-partial-match error, so the claim as stated
is false at this input (the code lowercases the keyword too). -/
theorem selectBestMatch_nonlowered_keyword_cex :
    selectBestMatch "Docker" ["dockerd"] = ("dockerd", none)
    ∧ eqFold "dockerd" "Docker" = false
    ∧ strContains (strToLower "dockerd") "Docker" = false := by decide

/-- C1 (amended): for every keyword and candidate list, `selectBestMatch`
fails with the not-found error on an empty list; returns a case-insensitive
exact match when one is present (the first such in list order, it being
nonempty — `""` is the Go sentinel for "no match"); otherwise returns the
first candidate in list order whose lowercased name contains the LOWERCASED
keyword as a substring; and otherwise fails with the
no-exact-or-partial-match error. -/
theorem selectBestMatch_amended_spec (keyword : String) (candidates : List String) :
    (candidates = [] → selectBestMatch keyword candidates = ("", some .serviceNotFound))
    ∧ (∀ pre m post, candidates = pre ++ m :: post → m ≠ "" →
        eqFold m keyword = true → (∀ x ∈ pre, eqFold x keyword = false) →
        selectBestMatch keyword candidates = (m, none))
    ∧ ((∀ x ∈ candidates, eqFold x keyword = false) →
        ∀ pre m post, candidates = pre ++ m :: post → m ≠ "" →
        strContains (strToLower m) (strToLower keyword) = true →
        (∀ x ∈ pre, strContains (strToLower x) (strToLower keyword) = false) →
        selectBestMatch keyword candidates = (m, none))
    ∧ (candidates ≠ [] →
        (∀ x ∈ candidates, eqFold x keyword = false ∧
          strContains (strToLower x) (strToLower keyword) = false) →
        selectBestMatch keyword candidates = ("", some (.noValidService keyword))) := by
  refine ⟨?_, ?_, ?_, ?_⟩
  · intro h; subst h; rfl
  · intro pre m post hc hm hex hpre
    subst hc
    have hne : (pre ++ m :: post).isEmpty = false := by cases pre <;> simp
    have hf := find?_append_first (fun name => eqFold name keyword) pre m post hpre hex
    simp only [selectBestMatch, hne, Bool.false_eq_true, if_false, hf]
    rw [if_pos hm]
  · intro hall pre m post hc hm hcon hpre
    subst hc
    have hne : (pre ++ m :: post).isEmpty = false := by cases pre <;> simp
    have hf1 : (pre ++ m :: post).find? (fun name => eqFold name keyword) = none :=
      List.find?_eq_none.mpr (fun x hx => by simp [hall x hx])
    have hf2 := find?_append_first
      (fun name => strContains (strToLower name) (strToLower keyword)) pre m post hpre hcon
    simp only [selectBestMatch, hne, Bool.false_eq_true, if_false, hf1, hf2]
    rw [if_neg (by simp), if_pos hm]
  · intro hne hall
    have hne' : candidates.isEmpty = false := by
      cases candidates with
      | nil => exact absurd rfl hne
      | cons a as => rfl
    have hf1 : candidates.find? (fun name => eqFold name keyword) = none :=
      List.find?_eq_none.mpr (fun x hx => by simp [(hall x hx).1])
    have hf2 : candidates.find?
        (fun name => strContains (strToLower name) (strToLower keyword)) = none :=
      List.find?_eq_none.mpr (fun x hx => by simp [(hall x hx).2])
    simp only [selectBestMatch, hne', Bool.false_eq_true, if_false, hf1, hf2]
    rw [if_neg (by simp), if_neg (by simp)]

/-- Witness for C1's amended theorem: the spec's own scenario — keyword
`"docker"`, discovered list `["dockerd", "docker.service"]`, no exact match,
first contain-match in list order wins. -/
theorem selectBestMatch_amended_spec_witness :
    selectBestMatch "docker" ["dockerd", "docker.service"] = ("dockerd", none) :=
  (selectBestMatch_amended_spec "docker" ["dockerd", "docker.service"]).2.2.1
    (by decide) [] "dockerd" ["docker.service"] rfl (by decide) (by decide) (by decide)

/-! ## C2 — naming normalization -/

/-- C2: `handleServiceNaming` computes exactly what the claim describes —
lower-case the keyword, rewrite a trailing `.service.socket` to `.socket`,
then under systemd append `.service` unless the name already ends in
`.service` or `.socket`, and under any other manager strip a `.service`
suffix instead. -/
theorem handleServiceNaming_spec (mgrName keyword : String) :
    handleServiceNaming mgrName keyword = handleServiceNamingClaim mgrName keyword := by
  unfold handleServiceNaming handleServiceNamingClaim
  cases hm : mgrName == "systemd"
  · simp [hm]
  · simp only [hm, Bool.not_true, Bool.false_eq_true, if_false, if_true]
    cases h1 : strHasSuffix (socketRewrite (strToLower keyword)) ".service" <;>
      cases h2 : strHasSuffix (socketRewrite (strToLower keyword)) ".socket" <;>
        simp [h1, h2]

/-! ## C4 — candidate race -/

/-- C4 (code bug demonstration): probe `only "b" exists` over candidates
`["a","b","c"]`.  Under every completion order in which the `found` channel
wins the final `select` (all six orders listed), the call returns `"b"` with
no error, regardless of slice order — the claim's intent.  But under the
schedule in which the `errgroup.Wait` forwarder channel wins the `select`
(both channels are ready once all probes finish, and Go's `select` picks
randomly), the same call returns `ErrServiceNotFound` although `"b"` exists:
the code can return an error, contradicting the claim. -/
theorem validateCandidates_race_outcome :
    (([["a","b","c"], ["a","c","b"], ["b","a","c"], ["b","c","a"], ["c","a","b"],
        ["c","b","a"]] : List (List String)).all
      (fun order =>
        validateCandidatesConcurrently (fun c => c == "b") (.pickFound order) ["a","b","c"]
          == ("b", (none : Option SvcError)))) = true
    ∧ validateCandidatesConcurrently (fun c => c == "b") .pickWaitErr ["a","b","c"]
        = ("", some .serviceNotFound) := by decide

/-! ## C6 — SysV not-found parsing -/

/-- C6 counterexample: the not-found markers do NOT uniformly force a clean
`false`.  An `"enabled"` parse of output containing the SysV `not found`
marker returns `true` (the trimmed output is nonempty and only the
`no such file or directory` marker is checked on this branch), and an
`"active"` parse of output containing `no such file or directory` falls
through to the `unsupported status type` ERROR (only `not found` is checked
on that branch). -/
theorem sysvinitParseStatus_marker_cex :
    sysvinitParseStatus "sh: foo: not found" "enabled" = (true, none)
    ∧ sysvinitParseStatus "cat: /etc/init.d/foo: no such file or directory" "active"
        = (false, some (.unsupportedStatusType "active")) := by decide

/-- C6 (amended): each branch is clean for ITS OWN marker — an `"active"`
parse of any output containing `not found` yields `(false, nil)`, and an
`"enabled"` parse of any output containing `no such file or directory`
yields `(false, nil)`; neither propagates an error. -/
theorem sysvinitParseStatus_marker_spec (output : String) :
    (strContains output "not found" = true →
        sysvinitParseStatus output "active" = (false, none))
    ∧ (strContains output "no such file or directory" = true →
        sysvinitParseStatus output "enabled" = (false, none)) := by
  constructor <;> intro h <;> simp [sysvinitParseStatus, h]

/-- Witness for C6's amended theorem at concrete probe outputs. -/
theorem sysvinitParseStatus_marker_spec_witness :
    sysvinitParseStatus "foo: not found" "active" = (false, none)
    ∧ sysvinitParseStatus "ls: no such file or directory" "enabled" = (false, none) :=
  ⟨(sysvinitParseStatus_marker_spec "foo: not found").1 (by decide),
   (sysvinitParseStatus_marker_spec "ls: no such file or directory").2 (by decide)⟩

/-! ## C9 — facade totality -/

/-- C9 (code bug demonstration): at a keyword that fails to resolve
(`smartServiceName` returned `("", ErrServiceNotFound)`), `Start` and
`Disable` discard the `DefaultHandler` error and dereference the nil handler
— a nil-pointer panic, not an error return — while `Stop` (the intended
pattern, shared by `Restart` and `Enable`) checks the error and returns the
`is not exist` error.  On a successful resolution `Start` returns cleanly. -/
theorem facade_start_disable_panic :
    Start ("", some .serviceNotFound) ("", none) = .panicked
    ∧ Disable ("", some .serviceNotFound) ("", none) = .panicked
    ∧ Stop ("", some .serviceNotFound) ("", none) = .ret (some .notExist)
    ∧ Start ("docker.service", none) ("", none) = .ret none := by decide

/-! ## C5 — discovery cache population policy -/

/-- C5: `discoverServices` (i) serves an unexpired cache entry unchanged and
without consulting `FindServices` at all (the result is the same for every
enumeration outcome); (ii) on an enumeration error with no unexpired entry,
propagates the error and stores nothing — the keyword has no cache entry
afterwards and every other key is untouched; (iii) on a successful
enumeration with no unexpired entry, returns the results and stores them
under the keyword with expiry `now + discoveryTTL` (5 minutes), leaving other
keys untouched. -/
theorem discoverServices_cache_policy (now : Nat) (cache : DCache) (keyword : String) :
    (∀ item, cache keyword = some item → now < item.2 →
        ∀ findRes, discoverServices now findRes cache keyword = ((item.1, none), cache))
    ∧ (∀ results e,
        (cache keyword = none ∨ ∃ item, cache keyword = some item ∧ ¬ now < item.2) →
        (discoverServices now (results, some e) cache keyword).1
            = ([], some (.serviceDiscovery keyword))
        ∧ (discoverServices now (results, some e) cache keyword).2 keyword = none
        ∧ ∀ k, k ≠ keyword →
            (discoverServices now (results, some e) cache keyword).2 k = cache k)
    ∧ (∀ results,
        (cache keyword = none ∨ ∃ item, cache keyword = some item ∧ ¬ now < item.2) →
        (discoverServices now (results, none) cache keyword).1 = (results, none)
        ∧ (discoverServices now (results, none) cache keyword).2 keyword
            = some (results, now + discoveryTTL)
        ∧ ∀ k, k ≠ keyword →
            (discoverServices now (results, none) cache keyword).2 k = cache k) := by
  refine ⟨?_, ?_, ?_⟩
  · intro item hit hfresh findRes
    simp [discoverServices, hit, hfresh]
  · intro results e hmiss
    rcases hmiss with h | ⟨item, hit, hexp⟩
    · refine ⟨by simp [discoverServices, h], by simp [discoverServices, h], ?_⟩
      intro k hk
      simp [discoverServices, h]
    · refine ⟨by simp [discoverServices, hit, hexp], ?_, ?_⟩
      · simp [discoverServices, hit, hexp, eraseMap_same]
      · intro k hk
        simp [discoverServices, hit, hexp, eraseMap_other _ _ _ hk]
  · intro results hmiss
    rcases hmiss with h | ⟨item, hit, hexp⟩
    · refine ⟨by simp [discoverServices, h], ?_, ?_⟩
      · simp [discoverServices, h, storeMap_same]
      · intro k hk
        simp [discoverServices, h, storeMap_other _ _ _ _ hk]
    · refine ⟨by simp [discoverServices, hit, hexp], ?_, ?_⟩
      · simp [discoverServices, hit, hexp, storeMap_same]
      · intro k hk
        simp [discoverServices, hit, hexp, storeMap_other _ _ _ _ hk,
          eraseMap_other _ _ _ hk]

/-- Witness for C5 at a concrete input: empty cache, successful enumeration —
the result is returned and cached with the 5-minute expiry. -/
theorem discoverServices_cache_policy_witness :
    (discoverServices 0 (["nginx.service"], none) (fun _ => none) "nginx").1
      = (["nginx.service"], none)
    ∧ (discoverServices 0 (["nginx.service"], none) (fun _ => none) "nginx").2 "nginx"
      = some (["nginx.service"], 0 + discoveryTTL) := by
  have h := (discoverServices_cache_policy 0 (fun _ => none) "nginx").2.2
      ["nginx.service"] (Or.inl rfl)
  exact ⟨h.1, h.2.1⟩

/-! ## C8 — existence-cache TTL -/

/-- C8: `confirmServiceExists` (i) serves an unexpired entry unchanged,
without probing (the result is the same for every probe outcome); (ii) never
serves an expired entry — when the entry's expiry has passed the call behaves
exactly as on the cache with that entry deleted, i.e. the service is
re-probed; (iii) with no entry present, a fresh probe result (positive or
negative `b`) is returned and stored with expiry `now + existenceTTL`
(30 seconds), leaving every other key untouched. -/
theorem confirmServiceExists_ttl (now : Nat) (cache : ECache) (serviceName : String) :
    (∀ item, cache serviceName = some item → now < item.2 →
        ∀ probeRes, confirmServiceExists now probeRes cache serviceName
          = ((item.1, none), cache))
    ∧ (∀ item, cache serviceName = some item → ¬ now < item.2 →
        ∀ probeRes, confirmServiceExists now probeRes cache serviceName
          = confirmServiceExists now probeRes (eraseMap cache serviceName) serviceName)
    ∧ (∀ b, cache serviceName = none →
        (confirmServiceExists now (b, none) cache serviceName).1 = (b, none)
        ∧ (confirmServiceExists now (b, none) cache serviceName).2 serviceName
            = some (b, now + existenceTTL)
        ∧ ∀ x, x ≠ serviceName →
            (confirmServiceExists now (b, none) cache serviceName).2 x = cache x) := by
  refine ⟨?_, ?_, ?_⟩
  · intro item hit hfresh probeRes
    simp [confirmServiceExists, hit, hfresh]
  · intro item hit hexp probeRes
    simp [confirmServiceExists, hit, hexp, eraseMap_same]
  · intro b h
    refine ⟨by simp [confirmServiceExists, h], ?_, ?_⟩
    · simp [confirmServiceExists, h, storeMap_same]
    · intro x hx
      simp [confirmServiceExists, h, storeMap_other _ _ _ _ hx]

/-- Witness for C8 at a concrete input: an entry for `"redis"` that expired at
50 is not served at time 100 — the call equals the call on the purged cache,
which stores the fresh (negative) probe result with expiry 130. -/
theorem confirmServiceExists_ttl_witness :
    (confirmServiceExists 100 (false, none)
        (fun x => if x == "redis" then some (true, 50) else none) "redis").2 "redis"
      = some (false, 130) := by
  have h := (confirmServiceExists_ttl 100
      (fun x => if x == "redis" then some (true, 50) else none) "redis").2.1
      (true, 50) (by decide) (by decide) (false, none)
  rw [h]
  decide

/-! ## C7 — alias persistence round-trip -/

/-- A keyword absent from the persisted table is absent from the loaded one. -/
theorem loadAliases_lookup_absent (probe : String → Bool)
    (l : List (String × List String)) (k : String)
    (h : ∀ kv ∈ l, kv.1 ≠ k) :
    lookupAssoc (loadAliasesFromConfig probe l) k = none := by
  induction l with
  | nil => rfl
  | cons kv rest ih =>
      have hkv : kv.1 ≠ k := h kv (List.mem_cons_self kv rest)
      have hrest := ih (fun x hx => h x (List.mem_cons_of_mem _ hx))
      unfold loadAliasesFromConfig at hrest ⊢
      rw [List.filterMap_cons]
      by_cases hfe : (kv.2.filter probe).isEmpty
      · simp only [hfe, if_true]
        exact hrest
      · simp only [hfe, Bool.false_eq_true, if_false]
        unfold lookupAssoc at hrest ⊢
        rw [List.find?_cons_of_neg _ (by simp [hkv])]
        exact hrest

/-- C7: `scheduleSave` persists the full current table (`saved`), and loading
it back keeps, for every keyword, exactly the persisted aliases that still
pass the existence probe, dropping the keyword entirely when none survive —
so a save followed by a reload is the identity minus entries whose names no
longer exist.  The persisted file is a JSON object, hence the unique-keys
hypothesis. -/
theorem loadAliases_roundtrip (probe : String → Bool)
    (saved : List (String × List String))
    (hkeys : (saved.map Prod.fst).Nodup) (k : String) :
    lookupAssoc (loadAliasesFromConfig probe saved) k =
      match lookupAssoc saved k with
      | none => none
      | some v =>
          if (v.filter probe).isEmpty then none else some (v.filter probe) := by
  induction saved with
  | nil => rfl
  | cons kv rest ih =>
      have hnotin : kv.1 ∉ rest.map Prod.fst := by
        intro hmem
        exact (List.nodup_cons.mp hkeys).1 hmem
      have hnd : (rest.map Prod.fst).Nodup := (List.nodup_cons.mp hkeys).2
      by_cases hk : kv.1 = k
      · subst hk
        have hfind : lookupAssoc (kv :: rest) kv.1 = some kv.2 := by
          unfold lookupAssoc
          rw [List.find?_cons_of_pos _ (by simp)]
          rfl
        rw [hfind]
        unfold loadAliasesFromConfig
        rw [List.filterMap_cons]
        by_cases hfe : (kv.2.filter probe).isEmpty
        · simp only [hfe, if_true]
          have habs : ∀ x ∈ rest, x.1 ≠ kv.1 := by
            intro x hx heq
            exact hnotin (heq ▸ List.mem_map_of_mem Prod.fst hx)
          exact loadAliases_lookup_absent probe rest kv.1 habs
        · simp only [hfe, Bool.false_eq_true, if_false]
          unfold lookupAssoc
          rw [List.find?_cons_of_pos _ (by simp)]
          rfl
      · have hfind : lookupAssoc (kv :: rest) k = lookupAssoc rest k := by
          unfold lookupAssoc
          rw [List.find?_cons_of_neg _ (by simp [hk])]
        rw [hfind]
        unfold loadAliasesFromConfig
        rw [List.filterMap_cons]
        by_cases hfe : (kv.2.filter probe).isEmpty
        · simp only [hfe, if_true]
          exact ih hnd
        · simp only [hfe, Bool.false_eq_true, if_false]
          have := ih hnd
          unfold loadAliasesFromConfig at this
          unfold lookupAssoc at this ⊢
          rw [List.find?_cons_of_neg _ (by simp [hk])]
          exact this

/-- Witness for C7: a two-keyword persisted table where only
`"docker.service"` still exists — the reload keeps it and prunes the rest. -/
theorem loadAliases_roundtrip_witness :
    lookupAssoc (loadAliasesFromConfig (fun n => n == "docker.service")
      [("docker", ["docker.service", "gone"]), ("foo", ["dead"])]) "docker"
      = some ["docker.service"] := by
  have h := loadAliases_roundtrip (fun n => n == "docker.service")
      [("docker", ["docker.service", "gone"]), ("foo", ["dead"])] (by decide) "docker"
  exact h.trans (by decide)

/-! ## C10 — alias-table update invariant -/

/-- A single `updateAliases` call preserves the C10 invariant. -/
theorem updateAliases_preserves (t : AliasTable) (k a : String) (h : Invariant t) :
    Invariant (updateAliases t k a) := by
  cases hka : k == a
  · have hka' : k ≠ a := by simpa using hka
    cases ht : t k
    · intro k' l' h'
      simp only [updateAliases, hka, Bool.false_eq_true, if_false,
        loadOrStore, ht, contains, List.any_nil, List.nil_append] at h'
      by_cases hk' : k' = k
      · subst hk'
        rw [storeMap_same] at h'
        obtain rfl : l' = [a] := by injection h' with h''; exact h''.symm
        exact ⟨List.nodup_singleton a, by simp [hka']⟩
      · rw [storeMap_other _ _ _ _ hk', storeMap_other _ _ _ _ hk'] at h'
        exact h k' l' h'
    case some l =>
      have hinv := h k l ht
      cases hca : contains l a
      · have hnotin : a ∉ l := by
          intro hmem
          have hct : contains l a = true := by
            simp only [contains, List.any_eq_true]
            exact ⟨a, hmem, by simp⟩
          rw [hca] at hct
          exact absurd hct (by simp)
        intro k' l' h'
        simp only [updateAliases, hka, Bool.false_eq_true, if_false,
          loadOrStore, ht, hca] at h'
        by_cases hk' : k' = k
        · subst hk'
          rw [storeMap_same] at h'
          obtain rfl : l' = l ++ [a] := by injection h' with h''; exact h''.symm
          constructor
          · rw [List.nodup_append]
            exact ⟨hinv.1, List.nodup_singleton a, by simp [hnotin]⟩
          · simp [hinv.2, hka']
        · rw [storeMap_other _ _ _ _ hk'] at h'
          exact h k' l' h'
      · intro k' l' h'
        simp only [updateAliases, hka, Bool.false_eq_true, if_false,
          loadOrStore, ht, hca, if_true] at h'
        exact h k' l' h'
  · intro k' l' h'
    simp only [updateAliases, hka, if_true] at h'
    exact h k' l' h'

/-- C10: `updateAliases` is a no-op when the alias equals the keyword or is
already present in the keyword's list; otherwise it appends exactly that one
alias (creating the entry when absent) and touches no other keyword; and
consequently any sequence of `updateAliases` calls preserves the invariant
that every stored list has no duplicates and never contains its own
keyword. -/
theorem updateAliases_invariant :
    (∀ t (k a : String), k = a → updateAliases t k a = t)
    ∧ (∀ t (k a : String) l, t k = some l → contains l a = true →
        updateAliases t k a = t)
    ∧ (∀ t (k a : String) l, t k = some l → k ≠ a → contains l a = false →
        updateAliases t k a k = some (l ++ [a])
        ∧ ∀ x, x ≠ k → updateAliases t k a x = t x)
    ∧ (∀ t (k a : String), t k = none → k ≠ a →
        updateAliases t k a k = some [a]
        ∧ ∀ x, x ≠ k → updateAliases t k a x = t x)
    ∧ (∀ ops t, Invariant t → Invariant (applyUpdates ops t)) := by
  refine ⟨?_, ?_, ?_, ?_, ?_⟩
  · intro t k a hka
    simp [updateAliases, hka]
  · intro t k a l ht hca
    cases hka : k == a
    · simp [updateAliases, hka, loadOrStore, ht, hca]
    · simp [updateAliases, hka]
  · intro t k a l ht hka hca
    have hka' : (k == a) = false := by simp [hka]
    constructor
    · simp [updateAliases, hka', loadOrStore, ht, hca, storeMap_same]
    · intro x hx
      simp [updateAliases, hka', loadOrStore, ht, hca, storeMap_other _ _ _ _ hx]
  · intro t k a ht hka
    have hka' : (k == a) = false := by simp [hka]
    constructor
    · simp [updateAliases, hka', loadOrStore, ht, contains, storeMap_same]
    · intro x hx
      simp [updateAliases, hka', loadOrStore, ht, contains,
        storeMap_other _ _ _ _ hx]
  · intro ops
    induction ops with
    | nil => intro t h; exact h
    | cons op rest ih =>
        intro t h
        exact ih (updateAliases t op.1 op.2) (updateAliases_preserves t op.1 op.2 h)

/-- Witness for C10: a burst of updates — a learned alias, the same alias
again (duplicate), and the keyword itself — leaves the table satisfying the
invariant, starting from the empty table. -/
theorem updateAliases_invariant_witness :
    Invariant (applyUpdates
      [("docker", "docker.service"), ("docker", "docker.service"), ("docker", "docker")]
      (fun _ => none)) :=
  updateAliases_invariant.2.2.2.2
    [("docker", "docker.service"), ("docker", "docker.service"), ("docker", "docker")]
    (fun _ => none) (fun _ _ h => nomatch h)

/-! ## C3 — resolution failure handling -/

/-- C3: when the direct existence check fails (`hdirect`), the concurrent
candidate validation step fails (`hval`: it returned a non-nil error), and
live discovery fails (`hdisc`: `discoverAndSelectService` returned a non-nil
error), then `smartServiceName` returns the empty name with
`ErrServiceNotFound` — never a partial or ambiguous result — and the alias
table afterwards holds, for the keyword, exactly its previous aliases that
still pass the existence probe (the entry is deleted when none remain, and
also when the keyword had no entry, the `LoadOrStore` of `getAliases`
notwithstanding), with every other keyword untouched. -/
theorem smartServiceName_failure_cleanup
    (mgrName keyword : String) (probe : String → Bool) (sched : ValSched)
    (discRes : List String × Option SvcError) (t : AliasTable)
    (hdirect : probe (handleServiceNaming mgrName keyword) = false)
    (hval : (validateCandidatesConcurrently probe sched
        (handleServiceNaming mgrName keyword :: (getAliases t keyword).1)).2.isSome = true)
    (hdisc : (discoverAndSelectService probe discRes keyword).2.isSome = true) :
    (smartServiceName mgrName probe sched discRes t keyword).1
        = ("", some .serviceNotFound)
    ∧ (smartServiceName mgrName probe sched discRes t keyword).2 keyword =
        (match t keyword with
         | none => none
         | some aliases =>
             if (aliases.filter probe).isEmpty then none
             else some (aliases.filter probe))
    ∧ ∀ k, k ≠ keyword →
        (smartServiceName mgrName probe sched discRes t keyword).2 k = t k := by
  have hres : smartServiceName mgrName probe sched discRes t keyword
      = (("", some .serviceNotFound),
         cleanupKeywordAliases probe (getAliases t keyword).2 keyword) := by
    unfold smartServiceName
    simp only [hdirect, Bool.false_eq_true, if_false, hval, if_true, hdisc]
  refine ⟨by rw [hres], ?_, ?_⟩
  · rw [hres, getAliases_table]
    cases ht : t keyword with
    | none => simp [cleanupKeywordAliases, storeMap, eraseMap]
    | some aliases =>
        simp only [cleanupKeywordAliases, ht]
        by_cases hfe : (aliases.filter probe).isEmpty
        · simp [hfe, eraseMap]
        · simp [hfe, storeMap]
  · intro k hk
    rw [hres, getAliases_table]
    cases ht : t keyword with
    | none => simp [cleanupKeywordAliases, storeMap, eraseMap, hk]
    | some aliases =>
        simp only [cleanupKeywordAliases, ht]
        by_cases hfe : (aliases.filter probe).isEmpty
        · simp [hfe, eraseMap, hk]
        · simp [hfe, storeMap, hk]

/-- Witness for C3: keyword `"foo"` with stale aliases and a learned
`"docker"` entry, every probe failing, the `Wait`-channel schedule, and an
empty enumeration — resolution fails with the not-found error, the `"foo"`
entry is purged entirely, and the `"docker"` entry is untouched. -/
theorem smartServiceName_failure_cleanup_witness :
    (smartServiceName "systemd" (fun _ => false) .pickWaitErr ([], none)
        (storeMap (storeMap (fun _ => none) "foo" ["foo-old", "foo.service"])
          "docker" ["dockerd"]) "foo").1 = ("", some .serviceNotFound)
    ∧ (smartServiceName "systemd" (fun _ => false) .pickWaitErr ([], none)
        (storeMap (storeMap (fun _ => none) "foo" ["foo-old", "foo.service"])
          "docker" ["dockerd"]) "foo").2 "foo" = none
    ∧ (smartServiceName "systemd" (fun _ => false) .pickWaitErr ([], none)
        (storeMap (storeMap (fun _ => none) "foo" ["foo-old", "foo.service"])
          "docker" ["dockerd"]) "foo").2 "docker" = some ["dockerd"] := by
  have h := smartServiceName_failure_cleanup "systemd" "foo" (fun _ => false)
      .pickWaitErr ([], none)
      (storeMap (storeMap (fun _ => none) "foo" ["foo-old", "foo.service"])
        "docker" ["dockerd"])
      (by decide) (by decide) (by decide)
  exact ⟨h.1, h.2.1.trans (by decide), (h.2.2 "docker" (by decide)).trans (by decide)⟩

end Systemctl
